import Mathlib

/-!
Shallow embedding of src/ObjectCounting_SizeDiscrimination/util.c
(utility functions for the Atmel Mega128 platform).

Hardware registers are 8-bit, modelled as Nat with explicit masking where
the C code would truncate; the 16-bit counter timer2_tick is a Nat with
explicit % 65536 on increment.  Straight-line register code becomes state
transformers on MachineState; the busy-wait loop of wait_ms, which only
terminates through the interrupt handler, becomes a small-step relation;
the stepper-motor loop, whose termination depends on its arguments,
becomes a fuel-indexed function producing a trace of hardware events.
-/

/-- The memory-mapped registers and module variables that util.c touches:
the timer registers OCR2, TCCR2, TIMSK, the port registers PINC, PORTC,
DDRC, PORTE, DDRE, the interrupt-driven counter timer2_tick
(volatile unsigned int), the static byte old_value of read_shaft_encoder,
and the global-interrupt-enable flag set by sei(). -/
structure MachineState where
  OCR2 : Nat
  TCCR2 : Nat
  TIMSK : Nat
  PINC : Nat
  PORTC : Nat
  DDRC : Nat
  PORTE : Nat
  DDRE : Nat
  timer2_tick : Nat
  old_value : Nat
  intEnabled : Bool
  deriving Repr, DecidableEq

/-- timer2_start(unit): zeroes timer2_tick; for unit = 0 sets
TCCR2 = 0b00001011 (CTC, prescaler 64) and ors 0b10000000 into TIMSK;
for unit = 1 sets TCCR2 = 0b00001001 (CTC, prescaler 1) and ors
0b10000000 into TIMSK; always ends with sei(). -/
def timer2_start (unit : Int) (s : MachineState) : MachineState :=
  let s := { s with timer2_tick := 0 }
  let s :=
    if unit = 0 then
      { s with TCCR2 := 0b00001011, TIMSK := s.TIMSK ||| 0b10000000 }
    else s
  let s :=
    if unit = 1 then
      { s with TCCR2 := 0b00001001, TIMSK := s.TIMSK ||| 0b10000000 }
    else s
  { s with intEnabled := true }

/-- timer2_stop(): TIMSK &= ~0b10000000; TCCR2 &= 0b01111111. -/
def timer2_stop (s : MachineState) : MachineState :=
  { s with TIMSK := s.TIMSK &&& 0b01111111, TCCR2 := s.TCCR2 &&& 0b01111111 }

/-- The straight-line prefix of wait_ms(time_val) before the busy-wait
loop: OCR2 = 250; timer2_tick = 0; timer2_start(0). -/
def wait_ms_entry (_time_val : Nat) (s : MachineState) : MachineState :=
  timer2_start 0 { s with OCR2 := 250, timer2_tick := 0 }

/-- Abstract state during the busy-wait loop of wait_ms: the value of
timer2_tick and whether control has passed the loop (the function is
about to return through timer2_stop). -/
structure WaitState where
  tick : Nat
  done : Bool
  deriving Repr, DecidableEq

/-- Small-step semantics of the busy-wait loop `while(timer2_tick < time_val);`
interleaved with the TIMER2_COMP interrupt handler.  While the loop is
running, either the interrupt fires (isr: the handler executes
timer2_tick++, a single increment of the 16-bit counter), or the loop
re-tests its condition: if timer2_tick < time_val it spins, otherwise it
exits.  No step leaves a done state. -/
inductive waitStep (time_val : Nat) : WaitState → WaitState → Prop
  | isr (t : Nat) :
      waitStep time_val ⟨t, false⟩ ⟨(t + 1) % 65536, false⟩
  | check_spin (t : Nat) (h : t < time_val) :
      waitStep time_val ⟨t, false⟩ ⟨t, false⟩
  | check_exit (t : Nat) (h : ¬ t < time_val) :
      waitStep time_val ⟨t, false⟩ ⟨t, true⟩

/-- read_push_buttons(): the else-if chain over PINC bits 5..0,
buttons active-low, checked from bit 5 down to bit 0. -/
def read_push_buttons (pinc : Nat) : Nat :=
  if pinc &&& 0b00100000 = 0 then 6
  else if pinc &&& 0b00010000 = 0 then 5
  else if pinc &&& 0b00001000 = 0 then 4
  else if pinc &&& 0b00000100 = 0 then 3
  else if pinc &&& 0b00000010 = 0 then 2
  else if pinc &&& 0b00000001 = 0 then 1
  else 0

/-- read_push_buttons as a transformer on the machine state: the C body
reads PINC and returns; it assigns no variable and no register. -/
def read_push_buttons_st (s : MachineState) : Nat × MachineState :=
  (read_push_buttons s.PINC, s)

/-- Initial value of the static local old_value of read_shaft_encoder. -/
def old_value_init : Nat := 0b11000000

/-- read_shaft_encoder() on explicit state (old_value, PINC):
new_value = PINC & 0b11000000; rotation is 1 if the knob left the groove
(old 0b11000000) toward 0b01000000, -1 if toward 0b10000000, else 0;
old_value is overwritten with new_value. -/
def read_shaft_encoder (old_value pinc : Nat) : Int × Nat :=
  let new_value := pinc &&& 0b11000000
  let rotation : Int :=
    if old_value = 0b11000000 then
      if new_value = 0b01000000 then 1
      else if new_value = 0b10000000 then -1
      else 0
    else 0
  (rotation, new_value)

/-- read_shaft_encoder as a transformer on the machine state: it reads
PINC, writes the static old_value, and returns the rotation. -/
def read_shaft_encoder_st (s : MachineState) : Int × MachineState :=
  let r := read_shaft_encoder s.old_value s.PINC
  (r.1, { s with old_value := r.2 })

/-- An observable hardware action of move_stepper_motor_by_step:
an assignment to PORTE, or a call to wait_ms. -/
inductive Event where
  | porteWrite (v : Nat)
  | wait (ms : Nat)
  deriving Repr, DecidableEq

/-- One pass of the direction = 1 inner for-loop body after the PORTE
write: turner = turner << 1 (8-bit), reset to 0b00010000 when it
becomes 0. -/
def turnerCW (turner : Nat) : Nat :=
  let t := (turner <<< 1) % 256
  if t = 0 then 0b00010000 else t

/-- One pass of the direction = -1 inner for-loop body after the PORTE
write: turner = turner >> 1, reset to 0b10000000 when it becomes
0b00001000. -/
def turnerCCW (turner : Nat) : Nat :=
  let t := turner >>> 1
  if t = 0b00001000 then 0b10000000 else t

/-- The inner `for(int i = 0; i < 5; i++)` loop of
move_stepper_motor_by_step, for i remaining passes: each pass writes
PORTE = masked_porte | turner and then advances turner with the given
phase function.  Returns the writes emitted and the final turner. -/
def stepperInner (phase : Nat → Nat) (masked : Nat) :
    Nat → Nat → List Event × Nat
  | 0, turner => ([], turner)
  | i + 1, turner =>
    let rest := stepperInner phase masked i (phase turner)
    (Event.porteWrite (masked ||| turner) :: rest.1, rest.2)

/-- The `while (steps <= num_steps)` loop of move_stepper_motor_by_step,
with explicit fuel bounding the number of iterations we are willing to
unfold: none means the loop was still running when the fuel ran out.
Each iteration runs the 5-pass inner loop for direction 1 or -1 (and
then increments steps), or does nothing for any other direction, and
always ends with wait_ms(2).  This version idealizes the 16-bit
`int steps` / `int num_steps` of the target as unbounded integers; it
agrees with the hardware loop whenever the steps counter cannot reach
INT_MAX = 32767 (and on the paths that never write steps), which covers
the direction and PORTE-write properties below.  The bit-exact
16-bit-counter loop is stepperLoop16. -/
def stepperLoop (masked : Nat) (num_steps direction : Int) :
    Nat → Int → Nat → Option (List Event)
  | 0, steps, _ => if steps ≤ num_steps then none else some []
  | fuel + 1, steps, turner =>
    if steps ≤ num_steps then
      if direction = 1 then
        let inner := stepperInner turnerCW masked 5 turner
        (stepperLoop masked num_steps direction fuel (steps + 1) inner.2).map
          (fun rest => inner.1 ++ Event.wait 2 :: rest)
      else if direction = -1 then
        let inner := stepperInner turnerCCW masked 5 turner
        (stepperLoop masked num_steps direction fuel (steps + 1) inner.2).map
          (fun rest => inner.1 ++ Event.wait 2 :: rest)
      else
        (stepperLoop masked num_steps direction fuel steps turner).map
          (fun rest => Event.wait 2 :: rest)
    else some []

/-- move_stepper_motor_by_step(num_steps, direction): steps = 0,
turner = 0b00010000, masked_porte = PORTE & 0b00001111, then the while
loop, observed as its trace of PORTE writes and wait_ms calls
(fuel-bounded). -/
def move_stepper_motor_by_step (porte : Nat) (num_steps direction : Int)
    (fuel : Nat) : Option (List Event) :=
  stepperLoop (porte &&& 0b00001111) num_steps direction fuel 0 0b00010000

/-- Number of wait_ms calls in a trace: one per iteration of the while
loop, since wait_ms(2) is the last statement of every iteration. -/
def countWaits : List Event → Nat
  | [] => 0
  | Event.wait _ :: rest => countWaits rest + 1
  | Event.porteWrite _ :: rest => countWaits rest

/-- Number of PORTE writes in a trace. -/
def countWrites : List Event → Nat
  | [] => 0
  | Event.porteWrite _ :: rest => countWrites rest + 1
  | Event.wait _ :: rest => countWrites rest

/-- Two's-complement wrap to the 16-bit signed range [-32768, 32767]:
the value an AVR `int` assumes after arithmetic, since `int` is 16 bits
on the ATmega128. -/
def wrap16 (x : Int) : Int := (x + 32768) % 65536 - 32768

/-- The `while (steps <= num_steps)` loop of move_stepper_motor_by_step
with the 16-bit `int steps` counter modelled exactly: `steps++` wraps
through wrap16, so incrementing past INT_MAX = 32767 wraps to -32768
(the overflow behaviour of the target).  Otherwise identical to
stepperLoop: each direction 1 / -1 iteration runs the 5-pass inner loop
and increments steps, any other direction leaves steps untouched, and
every iteration ends with wait_ms(2); none means the fuel ran out with
the loop still running. -/
def stepperLoop16 (masked : Nat) (num_steps direction : Int) :
    Nat → Int → Nat → Option (List Event)
  | 0, steps, _ => if steps ≤ num_steps then none else some []
  | fuel + 1, steps, turner =>
    if steps ≤ num_steps then
      if direction = 1 then
        let inner := stepperInner turnerCW masked 5 turner
        (stepperLoop16 masked num_steps direction fuel
            (wrap16 (steps + 1)) inner.2).map
          (fun rest => inner.1 ++ Event.wait 2 :: rest)
      else if direction = -1 then
        let inner := stepperInner turnerCCW masked 5 turner
        (stepperLoop16 masked num_steps direction fuel
            (wrap16 (steps + 1)) inner.2).map
          (fun rest => inner.1 ++ Event.wait 2 :: rest)
      else
        (stepperLoop16 masked num_steps direction fuel steps turner).map
          (fun rest => Event.wait 2 :: rest)
    else some []

/-- move_stepper_motor_by_step(num_steps, direction) with the 16-bit
steps counter: steps = 0, turner = 0b00010000,
masked_porte = PORTE & 0b00001111, then the while loop. -/
def move_stepper_motor_by_step16 (porte : Nat) (num_steps direction : Int)
    (fuel : Nat) : Option (List Event) :=
  stepperLoop16 (porte &&& 0b00001111) num_steps direction fuel 0 0b00010000

/-! ## Theorems -/

set_option maxRecDepth 8000 in
/-- C4: For every value of PINC, read_push_buttons returns a value in
{0,...,6}; it returns 0 exactly when all of PINC bits 0-5 are set (no
button pressed, buttons active-low); and when it returns k ≠ 0, bit k-1
of PINC is cleared and every higher bit among bits 0-5 is set, so k-1 is
the index of the highest-numbered cleared bit among bits 0-5. -/
theorem read_push_buttons_spec (pinc : Nat) (hp : pinc < 256) :
    read_push_buttons pinc ≤ 6 ∧
    (read_push_buttons pinc = 0 ↔ ∀ i < 6, pinc.testBit i = true) ∧
    (read_push_buttons pinc ≠ 0 →
      pinc.testBit (read_push_buttons pinc - 1) = false ∧
      ∀ j < 6, read_push_buttons pinc - 1 < j → pinc.testBit j = true) := by
  revert hp
  revert pinc
  decide

/-- C4 witness: instantiation at PINC = 0b101110 (bits 0 and 4 cleared):
the highest-numbered cleared bit among bits 0-5 is bit 4, so 5 is
returned. -/
theorem read_push_buttons_spec_witness :
    read_push_buttons 0b101110 ≤ 6 ∧
    (read_push_buttons 0b101110 = 0 ↔ ∀ i < 6, (0b101110 : Nat).testBit i = true) ∧
    (read_push_buttons 0b101110 ≠ 0 →
      (0b101110 : Nat).testBit (read_push_buttons 0b101110 - 1) = false ∧
      ∀ j < 6, read_push_buttons 0b101110 - 1 < j → (0b101110 : Nat).testBit j = true) :=
  read_push_buttons_spec 0b101110 (by decide)

/-- C5: read_shaft_encoder returns 1 iff the stored previous reading was
0b11000000 and the new reading (PINC & 0b11000000) is 0b01000000,
returns -1 iff the previous reading was 0b11000000 and the new reading
is 0b10000000, returns 0 in every other case, always overwrites the
stored previous reading with the new reading, and the stored byte is
initialized to 0b11000000. -/
theorem read_shaft_encoder_spec (old_value pinc : Nat) :
    ((read_shaft_encoder old_value pinc).1 = 1 ↔
      old_value = 0b11000000 ∧ pinc &&& 0b11000000 = 0b01000000) ∧
    ((read_shaft_encoder old_value pinc).1 = -1 ↔
      old_value = 0b11000000 ∧ pinc &&& 0b11000000 = 0b10000000) ∧
    (¬ (old_value = 0b11000000 ∧ pinc &&& 0b11000000 = 0b01000000) →
     ¬ (old_value = 0b11000000 ∧ pinc &&& 0b11000000 = 0b10000000) →
      (read_shaft_encoder old_value pinc).1 = 0) ∧
    (read_shaft_encoder old_value pinc).2 = pinc &&& 0b11000000 ∧
    old_value_init = 0b11000000 := by
  unfold read_shaft_encoder old_value_init
  split_ifs with h1 h2 h3 <;> simp_all <;> omega

/-- C5 witness: with the stored previous reading at its initial value
0b11000000 and PINC & 0b11000000 = 0b01000000, the function reports a
CW step (1) and stores 0b01000000. -/
theorem read_shaft_encoder_spec_witness :
    ((read_shaft_encoder 0b11000000 0b01111111).1 = 1 ↔
      (0b11000000 : Nat) = 0b11000000 ∧ (0b01111111 : Nat) &&& 0b11000000 = 0b01000000) ∧
    ((read_shaft_encoder 0b11000000 0b01111111).1 = -1 ↔
      (0b11000000 : Nat) = 0b11000000 ∧ (0b01111111 : Nat) &&& 0b11000000 = 0b10000000) ∧
    (¬ ((0b11000000 : Nat) = 0b11000000 ∧ (0b01111111 : Nat) &&& 0b11000000 = 0b01000000) →
     ¬ ((0b11000000 : Nat) = 0b11000000 ∧ (0b01111111 : Nat) &&& 0b11000000 = 0b10000000) →
      (read_shaft_encoder 0b11000000 0b01111111).1 = 0) ∧
    (read_shaft_encoder 0b11000000 0b01111111).2 = (0b01111111 : Nat) &&& 0b11000000 ∧
    old_value_init = 0b11000000 :=
  read_shaft_encoder_spec 0b11000000 0b01111111

/-- C6: the module's mutable state across calls is timer2_tick and
old_value; read_push_buttons writes no program variable and no hardware
register (the returned machine state is exactly the input state), and
read_shaft_encoder writes only old_value (every other field of the
machine state is unchanged, and old_value becomes PINC & 0b11000000). -/
theorem read_functions_frame (s : MachineState) :
    (read_push_buttons_st s).2 = s ∧
    (read_push_buttons_st s).1 = read_push_buttons s.PINC ∧
    (read_shaft_encoder_st s).2.OCR2 = s.OCR2 ∧
    (read_shaft_encoder_st s).2.TCCR2 = s.TCCR2 ∧
    (read_shaft_encoder_st s).2.TIMSK = s.TIMSK ∧
    (read_shaft_encoder_st s).2.PINC = s.PINC ∧
    (read_shaft_encoder_st s).2.PORTC = s.PORTC ∧
    (read_shaft_encoder_st s).2.DDRC = s.DDRC ∧
    (read_shaft_encoder_st s).2.PORTE = s.PORTE ∧
    (read_shaft_encoder_st s).2.DDRE = s.DDRE ∧
    (read_shaft_encoder_st s).2.timer2_tick = s.timer2_tick ∧
    (read_shaft_encoder_st s).2.intEnabled = s.intEnabled ∧
    (read_shaft_encoder_st s).2.old_value = s.PINC &&& 0b11000000 := by
  refine ⟨rfl, rfl, ?_, ?_, ?_, ?_, ?_, ?_, ?_, ?_, ?_, ?_, ?_⟩ <;>
    simp [read_shaft_encoder_st, read_shaft_encoder]

/-! ### Helper lemmas about the stepper loop -/

lemma stepperLoop_zero (masked : Nat) (ns d steps : Int) (turner : Nat) :
    stepperLoop masked ns d 0 steps turner =
      if steps ≤ ns then none else some [] := rfl

lemma stepperLoop_succ (masked : Nat) (ns d : Int) (fuel : Nat)
    (steps : Int) (turner : Nat) :
    stepperLoop masked ns d (fuel + 1) steps turner =
      if steps ≤ ns then
        if d = 1 then
          (stepperLoop masked ns d fuel (steps + 1)
              (stepperInner turnerCW masked 5 turner).2).map
            (fun rest => (stepperInner turnerCW masked 5 turner).1 ++
              Event.wait 2 :: rest)
        else if d = -1 then
          (stepperLoop masked ns d fuel (steps + 1)
              (stepperInner turnerCCW masked 5 turner).2).map
            (fun rest => (stepperInner turnerCCW masked 5 turner).1 ++
              Event.wait 2 :: rest)
        else
          (stepperLoop masked ns d fuel steps turner).map
            (fun rest => Event.wait 2 :: rest)
      else some [] := rfl

lemma countWaits_append (a b : List Event) :
    countWaits (a ++ b) = countWaits a + countWaits b := by
  induction a with
  | nil => simp [countWaits]
  | cons e rest ih => cases e <;> simp [countWaits, ih] <;> omega

lemma countWrites_append (a b : List Event) :
    countWrites (a ++ b) = countWrites a + countWrites b := by
  induction a with
  | nil => simp [countWrites]
  | cons e rest ih => cases e <;> simp [countWrites, ih] <;> omega

lemma stepperInner_counts (phase : Nat → Nat) (masked : Nat) :
    ∀ (i turner : Nat),
      countWrites (stepperInner phase masked i turner).1 = i ∧
      countWaits (stepperInner phase masked i turner).1 = 0 := by
  intro i
  induction i with
  | zero => intro turner; simp [stepperInner, countWrites, countWaits]
  | succ n ih =>
    intro turner
    have h := ih (phase turner)
    simp [stepperInner, countWrites, countWaits, h.1, h.2]

lemma stepperLoop_run (masked : Nat) (d : Int) (hd : d = 1 ∨ d = -1) :
    ∀ (k : Nat) (ns steps : Int) (turner : Nat),
      steps + k = ns →
      ∃ tr, stepperLoop masked ns d (k + 1) steps turner = some tr ∧
        countWaits tr = k + 1 ∧ countWrites tr = 5 * (k + 1) := by
  intro k
  induction k with
  | zero =>
    intro ns steps turner h
    have hle : steps ≤ ns := by push_cast at h; omega
    have hgt : ¬ steps + 1 ≤ ns := by push_cast at h; omega
    rcases hd with hd | hd <;> subst hd
    · refine ⟨(stepperInner turnerCW masked 5 turner).1 ++ [Event.wait 2],
        ?_, ?_, ?_⟩
      · rw [stepperLoop_succ, if_pos hle, if_pos rfl, stepperLoop_zero,
          if_neg hgt]
        rfl
      · rw [countWaits_append]
        have h5 := stepperInner_counts turnerCW masked 5 turner
        simp [countWaits, h5.2]
      · rw [countWrites_append]
        have h5 := stepperInner_counts turnerCW masked 5 turner
        simp [countWrites, h5.1]
    · refine ⟨(stepperInner turnerCCW masked 5 turner).1 ++ [Event.wait 2],
        ?_, ?_, ?_⟩
      · rw [stepperLoop_succ, if_pos hle, if_neg (by decide), if_pos rfl,
          stepperLoop_zero, if_neg hgt]
        rfl
      · rw [countWaits_append]
        have h5 := stepperInner_counts turnerCCW masked 5 turner
        simp [countWaits, h5.2]
      · rw [countWrites_append]
        have h5 := stepperInner_counts turnerCCW masked 5 turner
        simp [countWrites, h5.1]
  | succ k ih =>
    intro ns steps turner h
    have hle : steps ≤ ns := by push_cast at h; omega
    have h' : (steps + 1) + (k : Int) = ns := by push_cast at h ⊢; omega
    rcases hd with hd | hd <;> subst hd
    · obtain ⟨tr, htr, hwa, hwr⟩ :=
        ih ns (steps + 1) (stepperInner turnerCW masked 5 turner).2 h'
      refine ⟨(stepperInner turnerCW masked 5 turner).1 ++ Event.wait 2 :: tr,
        ?_, ?_, ?_⟩
      · rw [stepperLoop_succ, if_pos hle, if_pos rfl, htr]
        rfl
      · rw [countWaits_append]
        have h5 := stepperInner_counts turnerCW masked 5 turner
        simp [countWaits, h5.2, hwa]
      · rw [countWrites_append]
        have h5 := stepperInner_counts turnerCW masked 5 turner
        simp [countWrites, h5.1, hwr]
        ring
    · obtain ⟨tr, htr, hwa, hwr⟩ :=
        ih ns (steps + 1) (stepperInner turnerCCW masked 5 turner).2 h'
      refine ⟨(stepperInner turnerCCW masked 5 turner).1 ++ Event.wait 2 :: tr,
        ?_, ?_, ?_⟩
      · rw [stepperLoop_succ, if_pos hle, if_neg (by decide), if_pos rfl, htr]
        rfl
      · rw [countWaits_append]
        have h5 := stepperInner_counts turnerCCW masked 5 turner
        simp [countWaits, h5.2, hwa]
      · rw [countWrites_append]
        have h5 := stepperInner_counts turnerCCW masked 5 turner
        simp [countWrites, h5.1, hwr]
        ring

lemma stepperLoop_none_of_low_fuel (masked : Nat) (ns d : Int) :
    ∀ (fuel : Nat) (steps : Int) (turner : Nat),
      steps + fuel ≤ ns →
      stepperLoop masked ns d fuel steps turner = none := by
  intro fuel
  induction fuel with
  | zero =>
    intro steps turner h
    rw [stepperLoop_zero, if_pos (by push_cast at h ⊢; omega)]
  | succ fuel ih =>
    intro steps turner h
    have hle : steps ≤ ns := by push_cast at h ⊢; omega
    rw [stepperLoop_succ, if_pos hle]
    by_cases h1 : d = 1
    · subst h1
      rw [if_pos rfl, ih (steps + 1) _ (by push_cast at h ⊢; omega)]
      rfl
    · rw [if_neg h1]
      by_cases h2 : d = -1
      · subst h2
        rw [if_pos rfl, ih (steps + 1) _ (by push_cast at h ⊢; omega)]
        rfl
      · rw [if_neg h2, ih steps turner (by push_cast at h ⊢; omega)]
        rfl

lemma stepperLoop_none_of_bad_direction (masked : Nat) (ns d : Int)
    (h1 : d ≠ 1) (h2 : d ≠ -1) :
    ∀ (fuel : Nat) (steps : Int) (turner : Nat),
      steps ≤ ns →
      stepperLoop masked ns d fuel steps turner = none := by
  intro fuel
  induction fuel with
  | zero => intro steps turner h; rw [stepperLoop_zero, if_pos h]
  | succ fuel ih =>
    intro steps turner h
    rw [stepperLoop_succ, if_pos h, if_neg h1, if_neg h2, ih steps turner h]
    rfl

/-! ### The stepper loop with the exact 16-bit steps counter -/

lemma stepperLoop16_zero (masked : Nat) (ns d steps : Int) (turner : Nat) :
    stepperLoop16 masked ns d 0 steps turner =
      if steps ≤ ns then none else some [] := rfl

lemma stepperLoop16_succ (masked : Nat) (ns d : Int) (fuel : Nat)
    (steps : Int) (turner : Nat) :
    stepperLoop16 masked ns d (fuel + 1) steps turner =
      if steps ≤ ns then
        if d = 1 then
          (stepperLoop16 masked ns d fuel (wrap16 (steps + 1))
              (stepperInner turnerCW masked 5 turner).2).map
            (fun rest => (stepperInner turnerCW masked 5 turner).1 ++
              Event.wait 2 :: rest)
        else if d = -1 then
          (stepperLoop16 masked ns d fuel (wrap16 (steps + 1))
              (stepperInner turnerCCW masked 5 turner).2).map
            (fun rest => (stepperInner turnerCCW masked 5 turner).1 ++
              Event.wait 2 :: rest)
        else
          (stepperLoop16 masked ns d fuel steps turner).map
            (fun rest => Event.wait 2 :: rest)
      else some [] := rfl

lemma wrap16_bounds (x : Int) : -32768 ≤ wrap16 x ∧ wrap16 x ≤ 32767 := by
  unfold wrap16
  omega

lemma wrap16_eq_self {x : Int} (h1 : -32768 ≤ x) (h2 : x ≤ 32767) :
    wrap16 x = x := by
  unfold wrap16
  omega

/-- At num_steps = 32767 = INT_MAX the loop condition
`steps <= num_steps` holds for every 16-bit value of steps, and `steps++`
wraps from 32767 to -32768, so the loop never exits, direction valid or
not: for every fuel bound the 16-bit loop is still running. -/
lemma stepperLoop16_intmax_none (masked : Nat) (d : Int) :
    ∀ (fuel : Nat) (steps : Int) (turner : Nat),
      -32768 ≤ steps → steps ≤ 32767 →
      stepperLoop16 masked 32767 d fuel steps turner = none := by
  intro fuel
  induction fuel with
  | zero =>
    intro steps turner h1 h2
    rw [stepperLoop16_zero, if_pos h2]
  | succ fuel ih =>
    intro steps turner h1 h2
    rw [stepperLoop16_succ, if_pos h2]
    by_cases hd1 : d = 1
    · subst hd1
      rw [if_pos rfl, ih (wrap16 (steps + 1)) _ (wrap16_bounds _).1
        (wrap16_bounds _).2]
      rfl
    · rw [if_neg hd1]
      by_cases hd2 : d = -1
      · subst hd2
        rw [if_pos rfl, ih (wrap16 (steps + 1)) _ (wrap16_bounds _).1
          (wrap16_bounds _).2]
        rfl
      · rw [if_neg hd2, ih steps turner h1 h2]
        rfl

lemma stepperLoop16_run (masked : Nat) (d : Int) (hd : d = 1 ∨ d = -1) :
    ∀ (k : Nat) (ns steps : Int) (turner : Nat),
      steps + k = ns → 0 ≤ steps → ns ≤ 32766 →
      ∃ tr, stepperLoop16 masked ns d (k + 1) steps turner = some tr ∧
        countWaits tr = k + 1 ∧ countWrites tr = 5 * (k + 1) := by
  intro k
  induction k with
  | zero =>
    intro ns steps turner h h0 hns
    have hle : steps ≤ ns := by push_cast at h; omega
    have hgt : ¬ steps + 1 ≤ ns := by push_cast at h; omega
    have hw : wrap16 (steps + 1) = steps + 1 :=
      wrap16_eq_self (by omega) (by omega)
    rcases hd with hd | hd <;> subst hd
    · refine ⟨(stepperInner turnerCW masked 5 turner).1 ++ [Event.wait 2],
        ?_, ?_, ?_⟩
      · rw [stepperLoop16_succ, if_pos hle, if_pos rfl, hw,
          stepperLoop16_zero, if_neg hgt]
        rfl
      · rw [countWaits_append]
        have h5 := stepperInner_counts turnerCW masked 5 turner
        simp [countWaits, h5.2]
      · rw [countWrites_append]
        have h5 := stepperInner_counts turnerCW masked 5 turner
        simp [countWrites, h5.1]
    · refine ⟨(stepperInner turnerCCW masked 5 turner).1 ++ [Event.wait 2],
        ?_, ?_, ?_⟩
      · rw [stepperLoop16_succ, if_pos hle, if_neg (by decide), if_pos rfl,
          hw, stepperLoop16_zero, if_neg hgt]
        rfl
      · rw [countWaits_append]
        have h5 := stepperInner_counts turnerCCW masked 5 turner
        simp [countWaits, h5.2]
      · rw [countWrites_append]
        have h5 := stepperInner_counts turnerCCW masked 5 turner
        simp [countWrites, h5.1]
  | succ k ih =>
    intro ns steps turner h h0 hns
    have hle : steps ≤ ns := by push_cast at h; omega
    have h' : (steps + 1) + (k : Int) = ns := by push_cast at h ⊢; omega
    have hw : wrap16 (steps + 1) = steps + 1 :=
      wrap16_eq_self (by omega) (by push_cast at h; omega)
    rcases hd with hd | hd <;> subst hd
    · obtain ⟨tr, htr, hwa, hwr⟩ :=
        ih ns (steps + 1) (stepperInner turnerCW masked 5 turner).2 h'
          (by omega) hns
      refine ⟨(stepperInner turnerCW masked 5 turner).1 ++ Event.wait 2 :: tr,
        ?_, ?_, ?_⟩
      · rw [stepperLoop16_succ, if_pos hle, if_pos rfl, hw, htr]
        rfl
      · rw [countWaits_append]
        have h5 := stepperInner_counts turnerCW masked 5 turner
        simp [countWaits, h5.2, hwa]
      · rw [countWrites_append]
        have h5 := stepperInner_counts turnerCW masked 5 turner
        simp [countWrites, h5.1, hwr]
        ring
    · obtain ⟨tr, htr, hwa, hwr⟩ :=
        ih ns (steps + 1) (stepperInner turnerCCW masked 5 turner).2 h'
          (by omega) hns
      refine ⟨(stepperInner turnerCCW masked 5 turner).1 ++ Event.wait 2 :: tr,
        ?_, ?_, ?_⟩
      · rw [stepperLoop16_succ, if_pos hle, if_neg (by decide), if_pos rfl,
          hw, htr]
        rfl
      · rw [countWaits_append]
        have h5 := stepperInner_counts turnerCCW masked 5 turner
        simp [countWaits, h5.2, hwa]
      · rw [countWrites_append]
        have h5 := stepperInner_counts turnerCCW masked 5 turner
        simp [countWrites, h5.1, hwr]
        ring

lemma stepperLoop16_none_of_low_fuel (masked : Nat) (ns d : Int)
    (hns : ns ≤ 32766) :
    ∀ (fuel : Nat) (steps : Int) (turner : Nat),
      steps + fuel ≤ ns → 0 ≤ steps →
      stepperLoop16 masked ns d fuel steps turner = none := by
  intro fuel
  induction fuel with
  | zero =>
    intro steps turner h h0
    rw [stepperLoop16_zero, if_pos (by push_cast at h ⊢; omega)]
  | succ fuel ih =>
    intro steps turner h h0
    have hle : steps ≤ ns := by push_cast at h ⊢; omega
    have hw : wrap16 (steps + 1) = steps + 1 :=
      wrap16_eq_self (by omega) (by push_cast at h; omega)
    rw [stepperLoop16_succ, if_pos hle]
    by_cases h1 : d = 1
    · subst h1
      rw [if_pos rfl, hw, ih (steps + 1) _ (by push_cast at h ⊢; omega)
        (by omega)]
      rfl
    · rw [if_neg h1]
      by_cases h2 : d = -1
      · subst h2
        rw [if_pos rfl, hw, ih (steps + 1) _ (by push_cast at h ⊢; omega)
          (by omega)]
        rfl
      · rw [if_neg h2, ih steps turner (by push_cast at h ⊢; omega) h0]
        rfl

/-- C2 counterexample: at num_steps = 32767, the largest value of the
16-bit `int num_steps`, with direction 1, the loop has not exited after
num_steps + 1 = 32768 iterations (the claimed exact iteration count):
`steps <= 32767` holds for every 16-bit steps value and the increment
wraps, so the loop runs on. -/
theorem move_stepper_motor_intmax_counterexample :
    move_stepper_motor_by_step16 0 32767 1 32768 = none :=
  stepperLoop16_intmax_none 0 1 32768 0 0b00010000 (by norm_num) (by norm_num)

/-- C2 (amended): for every num_steps with 0 ≤ num_steps ≤ 32766 (all
representable nonnegative values of the 16-bit `int` except
INT_MAX = 32767) and direction 1 or -1, the while loop of
move_stepper_motor_by_step runs exactly num_steps + 1 iterations: with
fuel n + 1 the 16-bit-exact loop terminates with a trace containing
n + 1 wait_ms(2) calls (one per iteration, as the last action of each
iteration) and 5 * (n + 1) PORTE writes (five per iteration), while any
fuel ≤ n is not enough (the loop is still running), so the motor is
advanced one iteration more than the requested number of steps. -/
theorem move_stepper_motor_iterations16 (porte : Nat) (n : Nat) (d : Int)
    (hn : n ≤ 32766) (hd : d = 1 ∨ d = -1) :
    (∃ tr, move_stepper_motor_by_step16 porte n d (n + 1) = some tr ∧
      countWaits tr = n + 1 ∧ countWrites tr = 5 * (n + 1)) ∧
    ∀ fuel ≤ n, move_stepper_motor_by_step16 porte n d fuel = none := by
  constructor
  · exact stepperLoop16_run (porte &&& 0b00001111) d hd n n 0 0b00010000
      (by push_cast; omega) (by norm_num) (by omega)
  · intro fuel hfuel
    exact stepperLoop16_none_of_low_fuel (porte &&& 0b00001111) n d
      (by omega) fuel 0 0b00010000 (by push_cast; omega) (by norm_num)

/-- C2 witness: requesting 2 steps clockwise completes with fuel 3
(three iterations: 3 wait_ms calls and 15 PORTE writes) and does not
complete within 2 iterations. -/
theorem move_stepper_motor_iterations16_witness :
    ((∃ tr, move_stepper_motor_by_step16 0 (2 : Nat) 1 (2 + 1) = some tr ∧
      countWaits tr = 2 + 1 ∧ countWrites tr = 5 * (2 + 1)) ∧
     ∀ fuel ≤ 2, move_stepper_motor_by_step16 0 (2 : Nat) 1 fuel = none) :=
  move_stepper_motor_iterations16 0 2 1 (by norm_num) (Or.inl rfl)

/-- C3: for every num_steps ≥ 0 (a Nat n) and every direction other than
1 and -1, no iteration of the while loop increments steps, so the loop
never exits: for every fuel bound the loop is still running
(stepperLoop returns none), i.e. move_stepper_motor_by_step does not
terminate. -/
theorem move_stepper_motor_nontermination (porte : Nat) (n : Nat) (d : Int)
    (h1 : d ≠ 1) (h2 : d ≠ -1) (fuel : Nat) :
    move_stepper_motor_by_step porte n d fuel = none :=
  stepperLoop_none_of_bad_direction (porte &&& 0b00001111) n d h1 h2 fuel 0
    0b00010000 (by push_cast; omega)

/-- C3 witness: with direction 0 and num_steps 3, even 7 iterations of
fuel do not make the loop exit. -/
theorem move_stepper_motor_nontermination_witness :
    move_stepper_motor_by_step 0 (3 : Nat) 0 7 = none :=
  move_stepper_motor_nontermination 0 3 0 (by decide) (by decide) 7

/-- C7: no function of the module validates its input or takes an error
path.  timer2_start called with a unit other than 0 and 1 still proceeds
(zeroing timer2_tick and executing sei(), touching no timer register and
reporting nothing); wait_ms proceeds for every time_val (its entry
sequence unconditionally configures and starts the timer);
move_stepper_motor_by_step accepts num_steps = 300, outside the
documented 1..200 range, and runs its loop 301 times for direction 1
with no range check or error branch; and for the invalid direction 0 it
simply loops forever rather than rejecting the argument. -/
theorem no_input_validation :
    (∀ s : MachineState, timer2_start 2 s =
      { s with timer2_tick := 0, intEnabled := true }) ∧
    (∀ (t : Nat) (s : MachineState),
      (wait_ms_entry t s).timer2_tick = 0 ∧
      (wait_ms_entry t s).TCCR2 = 0b00001011 ∧
      (wait_ms_entry t s).intEnabled = true) ∧
    (∃ tr, move_stepper_motor_by_step 0 300 1 301 = some tr ∧
      countWaits tr = 301) ∧
    (∀ fuel : Nat, move_stepper_motor_by_step 0 300 0 fuel = none) := by
  refine ⟨fun s => rfl, fun t s => ⟨rfl, rfl, rfl⟩, ?_, ?_⟩
  · obtain ⟨tr, htr, hwa, hwr⟩ :=
      stepperLoop_run 0 1 (Or.inl rfl) 300 300 0 0b00010000 (by norm_num)
    exact ⟨tr, htr, by omega⟩
  · intro fuel
    exact stepperLoop_none_of_bad_direction 0 300 0 (by decide) (by decide)
      fuel 0 0b00010000 (by decide)

/-- C7 witness: timer2_start with the out-of-range unit 2 on a concrete
state proceeds without error, only zeroing timer2_tick and enabling
interrupts. -/
theorem no_input_validation_witness :
    timer2_start 2 (MachineState.mk 1 2 3 4 5 6 7 8 9 10 false) =
      { MachineState.mk 1 2 3 4 5 6 7 8 9 10 false with
          timer2_tick := 0, intEnabled := true } :=
  no_input_validation.1 (MachineState.mk 1 2 3 4 5 6 7 8 9 10 false)

/-! ### The PORTE write invariant of the stepper loop -/

/-- The four one-hot phase patterns (exactly one of bits 4-7 set) that
the turner variable assumes. -/
def phaseOK (t : Nat) : Prop :=
  t = 0b00010000 ∨ t = 0b00100000 ∨ t = 0b01000000 ∨ t = 0b10000000

instance (t : Nat) : Decidable (phaseOK t) := by
  unfold phaseOK
  infer_instance

lemma turnerCW_phase {t : Nat} (h : phaseOK t) : phaseOK (turnerCW t) := by
  rcases h with h | h | h | h <;> subst h <;> decide

lemma turnerCCW_phase {t : Nat} (h : phaseOK t) : phaseOK (turnerCCW t) := by
  rcases h with h | h | h | h <;> subst h <;> decide

lemma write_value_ok (m t : Nat) (hm : m < 16) (ht : phaseOK t) :
    (m ||| t) &&& 0b00001111 = m ∧ phaseOK ((m ||| t) &&& 0b11110000) := by
  rcases ht with h | h | h | h <;> subst h <;> revert hm <;> revert m <;> decide

lemma stepperInner_writes (phase : Nat → Nat)
    (hphase : ∀ t, phaseOK t → phaseOK (phase t)) (m : Nat) (hm : m < 16) :
    ∀ (i turner : Nat), phaseOK turner →
      phaseOK (stepperInner phase m i turner).2 ∧
      ∀ v, Event.porteWrite v ∈ (stepperInner phase m i turner).1 →
        v &&& 0b00001111 = m ∧ phaseOK (v &&& 0b11110000) := by
  intro i
  induction i with
  | zero =>
    intro turner ht
    exact ⟨ht, by simp [stepperInner]⟩
  | succ n ih =>
    intro turner ht
    obtain ⟨h2, h1⟩ := ih (phase turner) (hphase turner ht)
    refine ⟨h2, ?_⟩
    intro v hv
    simp only [stepperInner, List.mem_cons] at hv
    rcases hv with hv | hv
    · obtain rfl : v = m ||| turner := by injection hv
      exact write_value_ok m turner hm ht
    · exact h1 v hv

lemma stepperLoop_writes (m : Nat) (hm : m < 16) (ns d : Int) :
    ∀ (fuel : Nat) (steps : Int) (turner : Nat) (tr : List Event),
      phaseOK turner →
      stepperLoop m ns d fuel steps turner = some tr →
      ∀ v, Event.porteWrite v ∈ tr →
        v &&& 0b00001111 = m ∧ phaseOK (v &&& 0b11110000) := by
  intro fuel
  induction fuel with
  | zero =>
    intro steps turner tr ht htr v hv
    rw [stepperLoop_zero] at htr
    split_ifs at htr
    obtain rfl : ([] : List Event) = tr := by injection htr
    simp at hv
  | succ fuel ih =>
    intro steps turner tr ht htr v hv
    rw [stepperLoop_succ] at htr
    split_ifs at htr with hle h1 h2
    · subst h1
      rw [Option.map_eq_some'] at htr
      obtain ⟨rest, hrest, rfl⟩ := htr
      obtain ⟨hph, hwr⟩ := stepperInner_writes turnerCW
        (fun t ht => turnerCW_phase ht) m hm 5 turner ht
      rw [List.mem_append, List.mem_cons] at hv
      rcases hv with hv | hv | hv
      · exact hwr v hv
      · exact absurd hv (by simp)
      · exact ih (steps + 1) _ rest hph hrest v hv
    · subst h2
      rw [Option.map_eq_some'] at htr
      obtain ⟨rest, hrest, rfl⟩ := htr
      obtain ⟨hph, hwr⟩ := stepperInner_writes turnerCCW
        (fun t ht => turnerCCW_phase ht) m hm 5 turner ht
      rw [List.mem_append, List.mem_cons] at hv
      rcases hv with hv | hv | hv
      · exact hwr v hv
      · exact absurd hv (by simp)
      · exact ih (steps + 1) _ rest hph hrest v hv
    · rw [Option.map_eq_some'] at htr
      obtain ⟨rest, hrest, rfl⟩ := htr
      rw [List.mem_cons] at hv
      rcases hv with hv | hv
      · exact absurd hv (by simp)
      · exact ih steps turner rest ht hrest v hv
    · obtain rfl : ([] : List Event) = tr := by injection htr
      simp at hv

/-- C9: during move_stepper_motor_by_step with direction 1 or -1, every
value written to PORTE has exactly one of bits 4-7 set (its high nibble
is one of 0b00010000, 0b00100000, 0b01000000, 0b10000000, the four
one-hot phases of turner) and its low nibble equals PORTE & 0b00001111
as read at function entry. -/
theorem move_stepper_porte_writes (porte : Nat) (n : Nat) (d : Int)
    (fuel : Nat) (tr : List Event) (hd : d = 1 ∨ d = -1)
    (htr : move_stepper_motor_by_step porte n d fuel = some tr) :
    ∀ v, Event.porteWrite v ∈ tr →
      v &&& 0b00001111 = porte &&& 0b00001111 ∧
      (v &&& 0b11110000 = 0b00010000 ∨ v &&& 0b11110000 = 0b00100000 ∨
       v &&& 0b11110000 = 0b01000000 ∨ v &&& 0b11110000 = 0b10000000) := by
  intro v hv
  have hm : porte &&& 0b00001111 < 16 :=
    Nat.lt_of_le_of_lt Nat.and_le_right (by norm_num)
  exact stepperLoop_writes (porte &&& 0b00001111) hm n d fuel 0 0b00010000 tr
    (Or.inl rfl) htr v hv

/-- C9 witness: for entry PORTE = 0b10100101 and one iteration clockwise,
the first written value 0b00010101 has low nibble 0b0101 (the entry
PORTE low nibble) and one-hot high nibble 0b0001. -/
theorem move_stepper_porte_writes_witness :
    (0b00010101 : Nat) &&& 0b00001111 = (0b10100101 : Nat) &&& 0b00001111 ∧
    ((0b00010101 : Nat) &&& 0b11110000 = 0b00010000 ∨
     (0b00010101 : Nat) &&& 0b11110000 = 0b00100000 ∨
     (0b00010101 : Nat) &&& 0b11110000 = 0b01000000 ∨
     (0b00010101 : Nat) &&& 0b11110000 = 0b10000000) :=
  move_stepper_porte_writes 0b10100101 0 1 1
    [Event.porteWrite 21, Event.porteWrite 37, Event.porteWrite 69,
     Event.porteWrite 133, Event.porteWrite 21, Event.wait 2]
    (Or.inl rfl) (by decide) 21 (by decide)

/-! ### The busy-wait delay -/

lemma and127_testBit (x : Nat) (hx : x < 256) :
    (x &&& 0b01111111).testBit 7 = false ∧
    ∀ i, i ≠ 7 → (x &&& 0b01111111).testBit i = x.testBit i := by
  constructor
  · rw [Nat.testBit_land]
    have h7 : (0b01111111 : Nat).testBit 7 = false := by decide
    rw [h7, Bool.and_false]
  · intro i hi
    rw [Nat.testBit_land]
    rcases Nat.lt_or_ge i 8 with h8 | h8
    · have h127 : (0b01111111 : Nat).testBit i = true := by
        interval_cases i <;> first | rfl | exact absurd rfl hi
      rw [h127, Bool.and_true]
    · have hxi : x.testBit i = false := by
        apply Nat.testBit_eq_false_of_lt
        calc x < 256 := hx
          _ ≤ 2 ^ 8 := by norm_num
          _ ≤ 2 ^ i := Nat.pow_le_pow_right (by norm_num) h8
      have h127 : (0b01111111 : Nat).testBit i = false := by
        apply Nat.testBit_eq_false_of_lt
        calc (0b01111111 : Nat) < 2 ^ 8 := by norm_num
          _ ≤ 2 ^ i := Nat.pow_le_pow_right (by norm_num) h8
      rw [hxi, h127]
      rfl

/-- C1: wait_ms busy-waits on the interrupt-driven tick counter.  Its
entry sequence zeroes timer2_tick and starts timer2 (TCCR2 set, TIMSK
bit 7 set, interrupts enabled); in the small-step semantics of the wait
loop, every reachable state in which the loop has exited satisfies
time_val ≤ timer2_tick, i.e. the function does not return while
timer2_tick < time_val; and the only step that changes timer2_tick is
the TIMER2_COMP interrupt handler, which increments it by exactly 1
(as a 16-bit counter) per invocation. -/
theorem wait_ms_busy_wait :
    (∀ (t : Nat) (s : MachineState),
      (wait_ms_entry t s).timer2_tick = 0 ∧
      (wait_ms_entry t s).OCR2 = 250 ∧
      (wait_ms_entry t s).TCCR2 = 0b00001011 ∧
      (wait_ms_entry t s).TIMSK = s.TIMSK ||| 0b10000000 ∧
      (wait_ms_entry t s).intEnabled = true) ∧
    (∀ (time_val : Nat) (s' : WaitState),
      Relation.ReflTransGen (waitStep time_val) ⟨0, false⟩ s' →
      s'.done = true → time_val ≤ s'.tick) ∧
    (∀ (time_val : Nat) (s s' : WaitState),
      waitStep time_val s s' → s'.tick ≠ s.tick →
      s'.tick = (s.tick + 1) % 65536 ∧ s.done = false ∧ s'.done = false) := by
  refine ⟨fun t s => ⟨rfl, rfl, rfl, rfl, rfl⟩, ?_, ?_⟩
  · intro tv s' hreach hdone
    induction hreach with
    | refl => simp at hdone
    | tail hab hbc ih =>
      cases hbc with
      | isr t => simp at hdone
      | check_spin t h => simp at hdone
      | check_exit t h => exact Nat.not_lt.mp h
  · intro tv s s' hstep hne
    cases hstep with
    | isr t => exact ⟨rfl, rfl, rfl⟩
    | check_spin t h => exact absurd rfl hne
    | check_exit t h => exact absurd rfl hne

/-- C1 witness: with time_val = 1, a run of one interrupt followed by a
successful loop test reaches the exited state with tick 1, and indeed
1 ≤ 1. -/
theorem wait_ms_busy_wait_witness :
    (1 : Nat) ≤ (WaitState.mk 1 true).tick :=
  wait_ms_busy_wait.2.1 1 (WaitState.mk 1 true)
    (Relation.ReflTransGen.tail
      (Relation.ReflTransGen.single (waitStep.isr 0))
      (waitStep.check_exit 1 (by decide))) rfl

/-- C8: wait_ms configures the timer for millisecond ticks before
waiting and shuts it down after.  It sets OCR2 = 250 and starts timer2
in slow mode: TCCR2 = 0b00001011 (CTC, prescaler 64), TIMSK bit 7 set
to enable the output-compare interrupt, and global interrupts enabled;
and timer2_stop clears exactly bit 7 of TIMSK and bit 7 of TCCR2,
leaving every other bit of those two registers unchanged (and touching
no other register). -/
theorem wait_ms_timer_config (s : MachineState)
    (hT : s.TIMSK < 256) (hC : s.TCCR2 < 256) :
    (∀ t : Nat,
      (wait_ms_entry t s).OCR2 = 250 ∧
      (wait_ms_entry t s).TCCR2 = 0b00001011 ∧
      (wait_ms_entry t s).TIMSK = s.TIMSK ||| 0b10000000 ∧
      ((wait_ms_entry t s).TIMSK).testBit 7 = true ∧
      (wait_ms_entry t s).intEnabled = true) ∧
    (timer2_stop s).TIMSK = s.TIMSK &&& 0b01111111 ∧
    (timer2_stop s).TCCR2 = s.TCCR2 &&& 0b01111111 ∧
    ((timer2_stop s).TIMSK).testBit 7 = false ∧
    ((timer2_stop s).TCCR2).testBit 7 = false ∧
    (∀ i, i ≠ 7 → ((timer2_stop s).TIMSK).testBit i = s.TIMSK.testBit i) ∧
    (∀ i, i ≠ 7 → ((timer2_stop s).TCCR2).testBit i = s.TCCR2.testBit i) ∧
    (timer2_stop s).OCR2 = s.OCR2 ∧
    (timer2_stop s).timer2_tick = s.timer2_tick := by
  obtain ⟨hT7, hTbits⟩ := and127_testBit s.TIMSK hT
  obtain ⟨hC7, hCbits⟩ := and127_testBit s.TCCR2 hC
  refine ⟨fun t => ⟨rfl, rfl, rfl, ?_, rfl⟩, rfl, rfl, hT7, hC7, hTbits,
    hCbits, rfl, rfl⟩
  rw [show (wait_ms_entry t s).TIMSK = s.TIMSK ||| 0b10000000 from rfl,
    Nat.testBit_or]
  have h128 : (0b10000000 : Nat).testBit 7 = true := by decide
  rw [h128, Bool.or_true]

/-- C8 witness: on a concrete byte-valued state, timer2_stop maps
TIMSK = 0b10000011 to 0b10000011 & 0b01111111. -/
theorem wait_ms_timer_config_witness :
    (timer2_stop (MachineState.mk 250 11 131 0 0 0 0 0 0 192 true)).TIMSK =
      (MachineState.mk 250 11 131 0 0 0 0 0 0 192 true).TIMSK &&& 0b01111111 :=
  (wait_ms_timer_config (MachineState.mk 250 11 131 0 0 0 0 0 0 192 true)
    (by decide) (by decide)).2.1

/-- C10: wait_ms(0) returns without waiting for any timer interrupt:
from the state with timer2_tick just reset to 0, the very first loop
test exits (the condition timer2_tick < 0 is false), the loop cannot
spin, and the composition timer2_stop ∘ wait_ms_entry leaves
timer2_tick at 0 (and shuts the timer down from its started state). -/
theorem wait_ms_zero (s : MachineState) :
    waitStep 0 (WaitState.mk 0 false) (WaitState.mk 0 true) ∧
    ¬ waitStep 0 (WaitState.mk 0 false) (WaitState.mk 0 false) ∧
    (timer2_stop (wait_ms_entry 0 s)).timer2_tick = 0 ∧
    (timer2_stop (wait_ms_entry 0 s)).TIMSK =
      (s.TIMSK ||| 0b10000000) &&& 0b01111111 := by
  refine ⟨waitStep.check_exit 0 (by omega), ?_, rfl, rfl⟩
  intro h
  cases h with
  | check_spin t h => exact absurd h (by omega)

/-- C10 witness: on a concrete state, wait_ms(0) ends with
timer2_tick = 0. -/
theorem wait_ms_zero_witness :
    (timer2_stop (wait_ms_entry 0
      (MachineState.mk 0 0 0 0 0 0 0 0 5 0 false))).timer2_tick = 0 :=
  (wait_ms_zero (MachineState.mk 0 0 0 0 0 0 0 0 5 0 false)).2.2.1

/-- C6 witness: on a concrete state, read_push_buttons_st returns the
state unchanged. -/
theorem read_functions_frame_witness :
    (read_push_buttons_st (MachineState.mk 1 2 3 255 4 5 6 7 8 192 false)).2 =
      MachineState.mk 1 2 3 255 4 5 6 7 8 192 false :=
  (read_functions_frame (MachineState.mk 1 2 3 255 4 5 6 7 8 192 false)).1
